import Mathlib

/-!
Verification of the SETTINGS frame codec (`src/frame/settings.rs`).

The Rust source is shallowly embedded: `u8`/`u16`/`u32` values become `Nat`
(with explicit bounds where overflow or byte-ness matters), `BTreeMap<u16, u32>`
becomes a key-sorted association list, byte buffers become `List Nat`, and the
panic of `Setting::load` on a short record is modelled by an outer `Option`
(`none` = abort).  Types the file uses from the external `frame` module
(`Head`, `Kind`, `StreamId`, `Error`) and the `bytes` crate are modelled from
the spec, as noted on each definition.
-/

namespace H2

/-- Modelled from the spec: the frame-kind tag of the enclosing protocol.  The
`Kind` enum lives in the external `frame` module; `Settings::load` only touches
it in a debug-only assertion, so any inhabitants beyond `settings` serve merely
as distinct tags. -/
inductive Kind
  | data
  | headers
  | settings
  | ping
  | goAway
  deriving DecidableEq

/-- Modelled from the spec: the decode error enum of the external `frame`
module, restricted to the variants `settings.rs` mentions.  The spec names
`invalidPayloadAckSettings` "InvalidSettingsPayloadLength" (it is the
"non-ACK payload length not a multiple of 6" rejection despite the source
variant's name). -/
inductive Error
  | invalidStreamId
  | invalidPayloadLength
  | invalidPayloadAckSettings
  | invalidSettingValue
  deriving DecidableEq

instance {ε α : Type} [DecidableEq ε] [DecidableEq α] : DecidableEq (Except ε α) := fun x y =>
  match x, y with
  | .ok a, .ok b =>
    if h : a = b then .isTrue (congrArg Except.ok h)
    else .isFalse (fun hh => h (Except.ok.inj hh))
  | .error a, .error b =>
    if h : a = b then .isTrue (congrArg Except.error h)
    else .isFalse (fun hh => h (Except.error.inj hh))
  | .ok _, .error _ => .isFalse (fun hh => Except.noConfusion hh)
  | .error _, .ok _ => .isFalse (fun hh => Except.noConfusion hh)

/-- Modelled from the spec: the frame header as consumed by `Settings::load` —
a kind tag, the raw flags byte, and a stream identifier (`0` denotes the
connection-level stream, `StreamId::zero()`). -/
structure Head where
  kind : Kind
  flag : Nat
  streamId : Nat
  deriving DecidableEq

/-- Modelled from the spec: `Head::new(kind, flag, stream_id)` of the external
frame-head collaborator. -/
def Head.new (kind : Kind) (flag : Nat) (streamId : Nat) : Head :=
  ⟨kind, flag, streamId⟩

/-- `struct SettingsFlags(u8)`. -/
structure SettingsFlags where
  bits : Nat
  deriving DecidableEq

/-- `const ACK: u8 = 0x1`. -/
def ACK : Nat := 0x1

/-- `const ALL: u8 = ACK`. -/
def ALL : Nat := ACK

/-- The default value of SETTINGS_HEADER_TABLE_SIZE. -/
def DEFAULT_SETTINGS_HEADER_TABLE_SIZE : Nat := 4096

/-- The default value of SETTINGS_INITIAL_WINDOW_SIZE. -/
def DEFAULT_INITIAL_WINDOW_SIZE : Nat := 65535

/-- The default value of MAX_FRAME_SIZE. -/
def DEFAULT_MAX_FRAME_SIZE : Nat := 16384

/-- INITIAL_WINDOW_SIZE upper bound, `(1 << 31) - 1`. -/
def MAX_INITIAL_WINDOW_SIZE : Nat := 2 ^ 31 - 1

/-- MAX_FRAME_SIZE upper bound, `(1 << 24) - 1`. -/
def MAX_MAX_FRAME_SIZE : Nat := 2 ^ 24 - 1

/-- `SettingsFlags::empty`. -/
def SettingsFlags.empty : SettingsFlags := ⟨0⟩

/-- `SettingsFlags::load(bits)`: masks the byte to the recognized bits. -/
def SettingsFlags.load (bits : Nat) : SettingsFlags := ⟨bits &&& ALL⟩

/-- `SettingsFlags::ack()`. -/
def SettingsFlags.ack : SettingsFlags := ⟨ACK⟩

/-- `SettingsFlags::is_ack`: tests the ACK bit. -/
def SettingsFlags.is_ack (f : SettingsFlags) : Bool := f.bits &&& ACK == ACK

/-- `impl From<SettingsFlags> for u8`. -/
def SettingsFlags.toByte (f : SettingsFlags) : Nat := f.bits

/-- The `Setting` enum: one configuration parameter.  The source's `Opaque`
variant is named `unknown` here (`opaque` is a Lean keyword). -/
inductive Setting
  | headerTableSize (v : Nat)
  | enablePush (v : Nat)
  | maxConcurrentStreams (v : Nat)
  | initialWindowSize (v : Nat)
  | maxFrameSize (v : Nat)
  | maxHeaderListSize (v : Nat)
  | unknown (id : Nat) (v : Nat)
  deriving DecidableEq

/-- `Setting::HEADER_TABLE_SIZE`. -/
def Setting.HEADER_TABLE_SIZE : Nat := 0x1

/-- `Setting::ENABLE_PUSH`. -/
def Setting.ENABLE_PUSH : Nat := 0x2

/-- `Setting::MAX_CONCURRENT_STREAMS`. -/
def Setting.MAX_CONCURRENT_STREAMS : Nat := 0x3

/-- `Setting::INITIAL_WINDOW_SIZE`. -/
def Setting.INITIAL_WINDOW_SIZE : Nat := 0x4

/-- `Setting::MAX_FRAME_SIZE`. -/
def Setting.MAX_FRAME_SIZE : Nat := 0x5

/-- `Setting::MAX_HEADER_LIST_SIZE`. -/
def Setting.MAX_HEADER_LIST_SIZE : Nat := 0x6

/-- `Setting::from_id(id, val)`: total; unregistered identifiers fall through
to the catch-all variant. -/
def Setting.from_id (id : Nat) (val : Nat) : Option Setting :=
  if id = Setting.HEADER_TABLE_SIZE then some (.headerTableSize val)
  else if id = Setting.ENABLE_PUSH then some (.enablePush val)
  else if id = Setting.MAX_CONCURRENT_STREAMS then some (.maxConcurrentStreams val)
  else if id = Setting.INITIAL_WINDOW_SIZE then some (.initialWindowSize val)
  else if id = Setting.MAX_FRAME_SIZE then some (.maxFrameSize val)
  else if id = Setting.MAX_HEADER_LIST_SIZE then some (.maxHeaderListSize val)
  else some (.unknown id val)

/-- `Setting::load(raw)`: reads `raw[0]..raw[5]`, big-endian 16-bit identifier
then big-endian 32-bit value, and defers to `from_id`.  The outer `Option`
models the documented panic on an input shorter than 6 bytes (`none` =
out-of-bounds indexing aborts); the inner `Option` is the source's return
type. -/
def Setting.load (raw : List Nat) : Option (Option Setting) :=
  match raw with
  | r0 :: r1 :: r2 :: r3 :: r4 :: r5 :: _ =>
    some (Setting.from_id ((r0 <<< 8) ||| r1)
      ((r2 <<< 24) ||| (r3 <<< 16) ||| (r4 <<< 8) ||| r5))
  | _ => none

/-- Modelled from the spec: `BufMut::put_u16_be` of the `bytes` crate — the two
big-endian bytes of a 16-bit value. -/
def put_u16_be (n : Nat) : List Nat := [n / 256 % 256, n % 256]

/-- Modelled from the spec: `BufMut::put_u32_be` of the `bytes` crate — the
four big-endian bytes of a 32-bit value. -/
def put_u32_be (n : Nat) : List Nat :=
  [n / 16777216 % 256, n / 65536 % 256, n / 256 % 256, n % 256]

/-- The `(kind, val)` pair computed by the match inside `Setting::encode`. -/
def Setting.kindVal : Setting → Nat × Nat
  | .headerTableSize v => (Setting.HEADER_TABLE_SIZE, v)
  | .enablePush v => (Setting.ENABLE_PUSH, v)
  | .maxConcurrentStreams v => (Setting.MAX_CONCURRENT_STREAMS, v)
  | .initialWindowSize v => (Setting.INITIAL_WINDOW_SIZE, v)
  | .maxFrameSize v => (Setting.MAX_FRAME_SIZE, v)
  | .maxHeaderListSize v => (Setting.MAX_HEADER_LIST_SIZE, v)
  | .unknown i v => (i, v)

/-- `Setting::encode(dst)`: the 6 bytes appended to the output buffer. -/
def Setting.encode (st : Setting) : List Nat :=
  put_u16_be st.kindVal.1 ++ put_u32_be st.kindVal.2

/-- Insertion into the key-sorted association list modelling
`BTreeMap<u16, u32>`: keeps keys strictly ascending, overwrites an equal
key. -/
def btreeInsert (k v : Nat) : List (Nat × Nat) → List (Nat × Nat)
  | [] => [(k, v)]
  | (k', v') :: rest =>
    if k < k' then (k, v) :: (k', v') :: rest
    else if k = k' then (k, v) :: rest
    else (k', v') :: btreeInsert k v rest

/-- Removal from the association list modelling `BTreeMap::remove` (keys are
unique, so removing the first match suffices). -/
def btreeRemove (k : Nat) : List (Nat × Nat) → List (Nat × Nat)
  | [] => []
  | (k', v') :: rest => if k = k' then rest else (k', v') :: btreeRemove k rest

/-- Lookup in the association list modelling `BTreeMap::get`. -/
def btreeGet (k : Nat) : List (Nat × Nat) → Option Nat
  | [] => none
  | (k', v') :: rest => if k = k' then some v' else btreeGet k rest

/-- `struct Settings { flags, fields }`, with the `BTreeMap<u16, u32>` as a
key-sorted association list. -/
structure Settings where
  flags : SettingsFlags
  fields : List (Nat × Nat)
  deriving DecidableEq

/-- `Settings::default()` (the `Default` derive): empty flags, empty map. -/
def Settings.default : Settings := ⟨⟨0⟩, []⟩

/-- `Settings::ack()`. -/
def Settings.ack : Settings := { Settings.default with flags := SettingsFlags.ack }

/-- `Settings::is_ack`. -/
def Settings.is_ack (s : Settings) : Bool := s.flags.is_ack

/-- `Settings::get(id)`. -/
def Settings.get (s : Settings) (id : Nat) : Option Nat := btreeGet id s.fields

/-- `Settings::set(id, val)`: `Some` inserts/overwrites, `None` removes. -/
def Settings.set (s : Settings) (id : Nat) (val : Option Nat) : Settings :=
  match val with
  | some v => { s with fields := btreeInsert id v s.fields }
  | none => { s with fields := btreeRemove id s.fields }

/-- `Settings::initial_window_size`. -/
def Settings.initial_window_size (s : Settings) : Option Nat :=
  s.get Setting.INITIAL_WINDOW_SIZE

/-- `Settings::set_initial_window_size` (no range check in the source). -/
def Settings.set_initial_window_size (s : Settings) (size : Option Nat) : Settings :=
  s.set Setting.INITIAL_WINDOW_SIZE size

/-- `Settings::max_concurrent_streams`. -/
def Settings.max_concurrent_streams (s : Settings) : Option Nat :=
  s.get Setting.MAX_CONCURRENT_STREAMS

/-- `Settings::set_max_concurrent_streams`. -/
def Settings.set_max_concurrent_streams (s : Settings) (max : Option Nat) : Settings :=
  s.set Setting.MAX_CONCURRENT_STREAMS max

/-- `Settings::max_frame_size`. -/
def Settings.max_frame_size (s : Settings) : Option Nat :=
  s.get Setting.MAX_FRAME_SIZE

/-- `Settings::set_max_frame_size`: the source `assert!`s the range before
storing; `none` models the panic on an out-of-range argument. -/
def Settings.set_max_frame_size (s : Settings) (size : Option Nat) : Option Settings :=
  match size with
  | some v =>
    if DEFAULT_MAX_FRAME_SIZE ≤ v ∧ v ≤ MAX_MAX_FRAME_SIZE then
      some (s.set Setting.MAX_FRAME_SIZE (some v))
    else none
  | none => some (s.set Setting.MAX_FRAME_SIZE none)

/-- `Settings::max_header_list_size`. -/
def Settings.max_header_list_size (s : Settings) : Option Nat :=
  s.get Setting.MAX_HEADER_LIST_SIZE

/-- `Settings::set_max_header_list_size`. -/
def Settings.set_max_header_list_size (s : Settings) (size : Option Nat) : Settings :=
  s.set Setting.MAX_HEADER_LIST_SIZE size

/-- `Settings::is_push_enabled`: stored value as boolean, default enabled. -/
def Settings.is_push_enabled (s : Settings) : Bool :=
  ((s.get Setting.ENABLE_PUSH).getD 1) != 0

/-- `Settings::set_enable_push` (`enable as u32`). -/
def Settings.set_enable_push (s : Settings) (enable : Bool) : Settings :=
  s.set Setting.ENABLE_PUSH (some (if enable then 1 else 0))

/-- The body of the `for raw in payload.chunks(6)` match in `Settings::load`:
apply one parsed `Setting` to the accumulator, range-checking the registered
kinds exactly as the source does. -/
def applySetting (s : Settings) : Setting → Except Error Settings
  | .headerTableSize v => .ok (s.set Setting.HEADER_TABLE_SIZE (some v))
  | .enablePush v =>
    if v = 0 ∨ v = 1 then .ok (s.set Setting.ENABLE_PUSH (some v))
    else .error .invalidSettingValue
  | .maxConcurrentStreams v => .ok (s.set Setting.MAX_CONCURRENT_STREAMS (some v))
  | .initialWindowSize v =>
    if MAX_INITIAL_WINDOW_SIZE < v then .error .invalidSettingValue
    else .ok (s.set Setting.INITIAL_WINDOW_SIZE (some v))
  | .maxFrameSize v =>
    if v < DEFAULT_MAX_FRAME_SIZE ∨ MAX_MAX_FRAME_SIZE < v then .error .invalidSettingValue
    else .ok (s.set Setting.MAX_FRAME_SIZE (some v))
  | .maxHeaderListSize v => .ok (s.set Setting.MAX_HEADER_LIST_SIZE (some v))
  | .unknown id v => .ok (s.set id (some v))

/-- `payload.chunks(6)`: consecutive non-overlapping 6-byte blocks, the last
one possibly shorter. -/
def chunks6 : List Nat → List (List Nat)
  | [] => []
  | r0 :: r1 :: r2 :: r3 :: r4 :: r5 :: rest => [r0, r1, r2, r3, r4, r5] :: chunks6 rest
  | l => [l]

/-- The `for raw in payload.chunks(6)` loop of `Settings::load`: parse each
chunk, apply it, abort the whole decode on the first error.  The outer
`Option` propagates the modelled panic of `Setting.load`; the source's
`None => {}` arm skips a record. -/
def loadFields (s : Settings) : List (List Nat) → Option (Except Error Settings)
  | [] => some (.ok s)
  | raw :: rest =>
    match Setting.load raw with
    | none => none
    | some none => loadFields s rest
    | some (some st) =>
      match applySetting s st with
      | .error e => some (.error e)
      | .ok s' => loadFields s' rest

/-- `Settings::load(head, payload)`.  The source's `debug_assert_eq!` on the
frame kind and `debug_assert!` on the fresh accumulator's flag are debug-only
and absent from release builds, so they are not modelled.  The outer `Option`
is `none` only if `Setting::load`'s panic were reachable. -/
def Settings.load (head : Head) (payload : List Nat) : Option (Except Error Settings) :=
  if head.streamId ≠ 0 then
    some (.error .invalidStreamId)
  else if (SettingsFlags.load head.flag).is_ack then
    if payload.length > 0 then some (.error .invalidPayloadLength)
    else some (.ok Settings.ack)
  else if payload.length % 6 ≠ 0 then
    some (.error .invalidPayloadAckSettings)
  else
    loadFields Settings.default (chunks6 payload)

/-- `Settings::for_each`: the sequence of `Setting` values the encoder visits,
in the map's (ascending-key) order, each as the catch-all variant. -/
def Settings.settingList (s : Settings) : List Setting :=
  s.fields.map (fun p => Setting.unknown p.1 p.2)

/-- `Settings::payload_len`: 6 bytes per visited setting. -/
def Settings.payload_len (s : Settings) : Nat :=
  s.settingList.foldl (fun len _ => len + 6) 0

/-- The output of `Settings::encode`: the frame head it builds (whose byte
serialization is delegated to the external `Head::encode`), the payload length
passed to that head encoder, and the payload bytes appended afterwards. -/
structure EncodedFrame where
  head : Head
  payloadLen : Nat
  payload : List Nat
  deriving DecidableEq

/-- `Settings::encode(dst)`: head from `Head::new(Kind::Settings, flags, 0)`,
then every visited setting's 6-byte record. -/
def Settings.encode (s : Settings) : EncodedFrame :=
  { head := Head.new Kind.settings s.flags.toByte 0
  , payloadLen := s.payload_len
  , payload := (s.settingList.map Setting.encode).flatten }

/-- The spec's range check for a registered identifier (table in spec §3/§4.3):
EnablePush in {0, 1}; InitialWindowSize at most `2^31 - 1`; MaxFrameSize in
`[16384, 2^24 - 1]`; everything else unconstrained. -/
def registeredOK (id v : Nat) : Prop :=
  (id = Setting.ENABLE_PUSH → v = 0 ∨ v = 1) ∧
  (id = Setting.INITIAL_WINDOW_SIZE → v ≤ MAX_INITIAL_WINDOW_SIZE) ∧
  (id = Setting.MAX_FRAME_SIZE → DEFAULT_MAX_FRAME_SIZE ≤ v ∧ v ≤ MAX_MAX_FRAME_SIZE)

instance (id v : Nat) : Decidable (registeredOK id v) := by
  unfold registeredOK; infer_instance

/-- An entry a well-formed wire record can carry: a `u16` identifier, a `u32`
value, in range when registered. -/
def ValidEntry (p : Nat × Nat) : Prop :=
  p.1 < 65536 ∧ p.2 < 4294967296 ∧ registeredOK p.1 p.2

instance (p : Nat × Nat) : Decidable (ValidEntry p) := by
  unfold ValidEntry; infer_instance

/-- Last-occurrence lookup in a record list: the value of the last record
carrying the given identifier. -/
def lastLookup (id : Nat) : List (Nat × Nat) → Option Nat
  | [] => none
  | (k, v) :: tl =>
    match lastLookup id tl with
    | some w => some w
    | none => if k = id then some v else none

/-- Folding `Settings::set` over a record list, in order. -/
def setFold (s : Settings) (l : List (Nat × Nat)) : Settings :=
  l.foldl (fun t p => t.set p.1 (some p.2)) s

/-- One call through the public typed-setter interface. -/
inductive SetterOp
  | initialWindow (v : Option Nat)
  | maxConcurrent (v : Option Nat)
  | maxFrame (v : Option Nat)
  | maxHeaderList (v : Option Nat)
  | enablePush (b : Bool)
  deriving DecidableEq

/-- Apply one typed setter; `none` models `set_max_frame_size`'s panic. -/
def SetterOp.apply (s : Settings) : SetterOp → Option Settings
  | .initialWindow v => some (s.set_initial_window_size v)
  | .maxConcurrent v => some (s.set_max_concurrent_streams v)
  | .maxFrame v => s.set_max_frame_size v
  | .maxHeaderList v => some (s.set_max_header_list_size v)
  | .enablePush b => some (s.set_enable_push b)

/-- Apply a sequence of typed setters. -/
def applyOps (s : Settings) : List SetterOp → Option Settings
  | [] => some s
  | op :: rest =>
    match op.apply s with
    | some s' => applyOps s' rest
    | none => none

/-- A setter argument is legal when it is a protocol-legal 32-bit value for
that parameter (the spec's "typed setters with legal values"). -/
def SetterOp.legal : SetterOp → Bool
  | .initialWindow (some v) => decide (v ≤ MAX_INITIAL_WINDOW_SIZE)
  | .maxConcurrent (some v) => decide (v < 4294967296)
  | .maxFrame (some v) => decide (DEFAULT_MAX_FRAME_SIZE ≤ v ∧ v ≤ MAX_MAX_FRAME_SIZE)
  | .maxHeaderList (some v) => decide (v < 4294967296)
  | _ => true

/-- Values a `Settings` can hold after legal typed-setter mutation of the
default instance: empty flags, strictly ascending keys, every entry a valid
wire entry. -/
def GoodSettings (s : Settings) : Prop :=
  s.flags = ⟨0⟩ ∧
  List.Pairwise (fun a b : Nat × Nat => a.1 < b.1) s.fields ∧
  ∀ p ∈ s.fields, ValidEntry p

/-- `Settings` values obtainable without any setter mutation: `ack()`,
`default()`, or a successful `load`. -/
inductive Constructed : Settings → Prop
  | ack : Constructed Settings.ack
  | dflt : Constructed Settings.default
  | load (h : Head) (p : List Nat) (s : Settings) :
      Settings.load h p = some (.ok s) → Constructed s

/-! Bit-level bridge: composing big-endian bytes by shift-and-or equals the
arithmetic recomposition. -/

theorem lor_two_pow (a b k : Nat) (hb : b < 2 ^ k) : (a <<< k) ||| b = a * 2 ^ k + b := by
  apply Nat.eq_of_testBit_eq
  intro i
  rw [Nat.testBit_or, Nat.testBit_shiftLeft]
  have h2 : a * 2 ^ k + b = 2 ^ k * a + b := by ring
  rw [h2, Nat.testBit_mul_pow_two_add a hb i]
  by_cases hik : i < k
  · have hk : ¬ (i ≥ k) := by omega
    simp [hik, hk]
  · have hk : i ≥ k := by omega
    have hb2 : b < 2 ^ i := lt_of_lt_of_le hb (Nat.pow_le_pow_right (by norm_num) hk)
    simp [hik, hk, Nat.testBit_lt_two_pow hb2]

theorem compose16 (n : Nat) (h : n < 65536) : ((n / 256 % 256) <<< 8) ||| (n % 256) = n := by
  rw [lor_two_pow _ _ 8 (by omega)]
  omega

theorem compose32 (v : Nat) (h : v < 4294967296) :
    ((v / 16777216 % 256) <<< 24) ||| ((v / 65536 % 256) <<< 16)
      ||| ((v / 256 % 256) <<< 8) ||| (v % 256) = v := by
  rw [Nat.lor_assoc, Nat.lor_assoc]
  rw [lor_two_pow _ _ 8 (by omega)]
  rw [lor_two_pow _ _ 16 (by omega)]
  rw [lor_two_pow _ _ 24 (by omega)]
  omega

/-! Association-list (`BTreeMap`) lemmas. -/

theorem btreeInsert_mem (p : Nat × Nat) (k v : Nat) :
    ∀ l, p ∈ btreeInsert k v l → p = (k, v) ∨ p ∈ l := by
  intro l
  induction l with
  | nil => simp [btreeInsert]
  | cons q rest ih =>
    obtain ⟨k', v'⟩ := q
    simp only [btreeInsert]
    split_ifs with h1 h2
    · intro h
      rcases List.mem_cons.mp h with h | h
      · exact Or.inl h
      · exact Or.inr h
    · intro h
      rcases List.mem_cons.mp h with h | h
      · exact Or.inl h
      · exact Or.inr (List.mem_cons_of_mem _ h)
    · intro h
      rcases List.mem_cons.mp h with h | h
      · exact Or.inr (h ▸ List.mem_cons_self _ _)
      · rcases ih h with h' | h'
        · exact Or.inl h'
        · exact Or.inr (List.mem_cons_of_mem _ h')

theorem btreeInsert_sorted (k v : Nat) :
    ∀ l, List.Pairwise (fun a b : Nat × Nat => a.1 < b.1) l →
      List.Pairwise (fun a b : Nat × Nat => a.1 < b.1) (btreeInsert k v l) := by
  intro l
  induction l with
  | nil => simp [btreeInsert]
  | cons q rest ih =>
    obtain ⟨k', v'⟩ := q
    intro hs
    rw [List.pairwise_cons] at hs
    obtain ⟨hhead, hrest⟩ := hs
    simp only [btreeInsert]
    split_ifs with h1 h2
    · refine List.Pairwise.cons ?_ (List.Pairwise.cons hhead hrest)
      intro q hq
      rcases List.mem_cons.mp hq with hq | hq
      · simpa [hq] using h1
      · exact lt_trans h1 (hhead q hq)
    · exact List.Pairwise.cons (fun q hq => h2 ▸ hhead q hq) hrest
    · refine List.Pairwise.cons ?_ (ih hrest)
      intro q hq
      rcases btreeInsert_mem q k v rest hq with h' | h'
      · subst h'; omega
      · exact hhead q h'

theorem btreeRemove_sublist (k : Nat) : ∀ l, List.Sublist (btreeRemove k l) l := by
  intro l
  induction l with
  | nil => simp [btreeRemove]
  | cons q rest ih =>
    obtain ⟨k', v'⟩ := q
    simp only [btreeRemove]
    split_ifs with h1
    · exact List.Sublist.cons _ (List.Sublist.refl _)
    · exact List.Sublist.cons₂ _ ih

theorem btreeGet_insert_self (k v : Nat) : ∀ l, btreeGet k (btreeInsert k v l) = some v := by
  intro l
  induction l with
  | nil => simp [btreeInsert, btreeGet]
  | cons q rest ih =>
    obtain ⟨k', v'⟩ := q
    simp only [btreeInsert]
    split_ifs with h1 h2
    · simp [btreeGet]
    · simp [btreeGet]
    · have hne : k ≠ k' := by omega
      simp [btreeGet, hne, ih]

theorem btreeGet_insert_ne (k id v : Nat) (hne : k ≠ id) :
    ∀ l, btreeGet id (btreeInsert k v l) = btreeGet id l := by
  have hne' : ¬ id = k := fun h => hne h.symm
  intro l
  induction l with
  | nil => simp [btreeInsert, btreeGet, hne']
  | cons q rest ih =>
    obtain ⟨k', v'⟩ := q
    simp only [btreeInsert]
    split_ifs with h1 h2
    · simp [btreeGet, hne']
    · subst h2
      simp [btreeGet, hne']
    · simp [btreeGet, ih]

theorem btreeInsert_append (k v : Nat) :
    ∀ l, (∀ p ∈ l, p.1 < k) → btreeInsert k v l = l ++ [(k, v)] := by
  intro l
  induction l with
  | nil => simp [btreeInsert]
  | cons q rest ih =>
    obtain ⟨k', v'⟩ := q
    intro hall
    have hk' : k' < k := by simpa using hall (k', v') (List.mem_cons_self _ _)
    simp only [btreeInsert]
    rw [if_neg (by omega), if_neg (by omega)]
    simp [ih (fun p hp => hall p (List.mem_cons_of_mem _ hp))]

/-! Flag-preservation facts. -/

theorem set_flags (s : Settings) (id : Nat) (val : Option Nat) :
    (s.set id val).flags = s.flags := by
  cases val <;> rfl

theorem set_fields_some (s : Settings) (id v : Nat) :
    (s.set id (some v)).fields = btreeInsert id v s.fields := rfl

theorem get_set_some (s : Settings) (k v id : Nat) :
    (s.set k (some v)).get id = if k = id then some v else s.get id := by
  by_cases h : k = id
  · subst h
    simp [Settings.get, Settings.set, btreeGet_insert_self]
  · simp [Settings.get, Settings.set, h, btreeGet_insert_ne k id v h]

/-! Per-record decode characterization. -/

theorem from_id_ne_none (id v : Nat) : Setting.from_id id v ≠ none := by
  unfold Setting.from_id
  split_ifs <;> simp

theorem applySetting_from_id (s : Settings) (id v : Nat) :
    (Setting.from_id id v).map (fun st => applySetting s st) =
      some (if registeredOK id v then .ok (s.set id (some v))
            else .error .invalidSettingValue) := by
  simp only [Setting.from_id, registeredOK, Setting.HEADER_TABLE_SIZE, Setting.ENABLE_PUSH,
    Setting.MAX_CONCURRENT_STREAMS, Setting.INITIAL_WINDOW_SIZE, Setting.MAX_FRAME_SIZE,
    Setting.MAX_HEADER_LIST_SIZE, MAX_INITIAL_WINDOW_SIZE, DEFAULT_MAX_FRAME_SIZE,
    MAX_MAX_FRAME_SIZE]
  split_ifs with a1 b1 a2 b2 a3 b3 a4 b4 a5 b5 a6 b6 b7
  · subst a1
    simp [applySetting, Setting.HEADER_TABLE_SIZE]
  · exact absurd (by omega) b1
  · subst a2
    have hv : v = 0 ∨ v = 1 := b2.1 rfl
    simp [applySetting, Setting.ENABLE_PUSH, hv]
  · subst a2
    have hv : ¬ (v = 0 ∨ v = 1) := fun hv => b2 ⟨fun _ => hv, by omega, by omega⟩
    simp [applySetting, hv]
  · subst a3
    simp [applySetting, Setting.MAX_CONCURRENT_STREAMS]
  · exact absurd (by omega) b3
  · subst a4
    have hv : v ≤ 2 ^ 31 - 1 := b4.2.1 rfl
    have hcond : ¬ (MAX_INITIAL_WINDOW_SIZE < v) := by
      simp only [MAX_INITIAL_WINDOW_SIZE]; omega
    simp [applySetting, Setting.INITIAL_WINDOW_SIZE, hcond]
  · subst a4
    have hv : ¬ (v ≤ 2 ^ 31 - 1) := fun hv => b4 ⟨by omega, fun _ => hv, by omega⟩
    have hcond : MAX_INITIAL_WINDOW_SIZE < v := by
      simp only [MAX_INITIAL_WINDOW_SIZE]; omega
    simp [applySetting, hcond]
  · subst a5
    have hv : 16384 ≤ v ∧ v ≤ 2 ^ 24 - 1 := b5.2.2 rfl
    have hcond : ¬ (v < DEFAULT_MAX_FRAME_SIZE ∨ MAX_MAX_FRAME_SIZE < v) := by
      simp only [DEFAULT_MAX_FRAME_SIZE, MAX_MAX_FRAME_SIZE]; omega
    simp [applySetting, Setting.MAX_FRAME_SIZE, hcond]
  · subst a5
    have hv : ¬ (16384 ≤ v ∧ v ≤ 2 ^ 24 - 1) := fun hv => b5 ⟨by omega, by omega, fun _ => hv⟩
    have hcond : v < DEFAULT_MAX_FRAME_SIZE ∨ MAX_MAX_FRAME_SIZE < v := by
      simp only [DEFAULT_MAX_FRAME_SIZE, MAX_MAX_FRAME_SIZE]; omega
    simp [applySetting, hcond]
  · subst a6
    simp [applySetting, Setting.MAX_HEADER_LIST_SIZE]
  · exact absurd (by omega) b6
  · simp [applySetting]
  · exact absurd ⟨fun h => absurd h a2, fun h => absurd h a4, fun h => absurd h a5⟩ b7

/-! Chunking lemmas. -/

theorem chunks6_mem_length :
    ∀ (l : List Nat), l.length % 6 = 0 → ∀ c ∈ chunks6 l, c.length = 6 := by
  intro l
  induction l using chunks6.induct with
  | case1 =>
    intro _ c hc
    simp [chunks6] at hc
  | case2 r0 r1 r2 r3 r4 r5 rest ih =>
    intro hlen c hc
    rw [chunks6] at hc
    rcases List.mem_cons.mp hc with h | h
    · subst h; rfl
    · refine ih ?_ c h
      simp only [List.length_cons] at hlen
      omega
  | case3 l hnil hbig =>
    intro hlen c _
    exfalso
    rcases l with _ | ⟨x0, _ | ⟨x1, _ | ⟨x2, _ | ⟨x3, _ | ⟨x4, _ | ⟨x5, rest⟩⟩⟩⟩⟩⟩
    · exact hnil rfl
    all_goals first
      | (exact hbig _ _ _ _ _ _ _ rfl)
      | (simp only [List.length_cons, List.length_nil] at hlen; omega)

/-! Loop (`loadFields`) lemmas. -/

theorem loadFields_result :
    ∀ (cs : List (List Nat)) (s : Settings), (∀ c ∈ cs, c.length = 6) →
      (∃ s', loadFields s cs = some (.ok s')) ∨
        loadFields s cs = some (.error .invalidSettingValue) := by
  intro cs
  induction cs with
  | nil =>
    intro s _
    exact Or.inl ⟨s, rfl⟩
  | cons c rest ih =>
    intro s h
    have hc : c.length = 6 := h c (List.mem_cons_self _ _)
    have hrest : ∀ d ∈ rest, d.length = 6 := fun d hd => h d (List.mem_cons_of_mem _ hd)
    rcases c with _ | ⟨r0, _ | ⟨r1, _ | ⟨r2, _ | ⟨r3, _ | ⟨r4, _ | ⟨r5, crest⟩⟩⟩⟩⟩⟩
    all_goals try (exfalso; simp only [List.length_cons, List.length_nil] at hc; omega)
    have happ := applySetting_from_id s ((r0 <<< 8) ||| r1)
      ((r2 <<< 24) ||| (r3 <<< 16) ||| (r4 <<< 8) ||| r5)
    rcases hfe : Setting.from_id ((r0 <<< 8) ||| r1)
        ((r2 <<< 24) ||| (r3 <<< 16) ||| (r4 <<< 8) ||| r5) with _ | st
    · exact absurd hfe (from_id_ne_none _ _)
    · rw [hfe] at happ
      simp only [Option.map_some'] at happ
      have happ' := Option.some.inj happ
      by_cases hok : registeredOK ((r0 <<< 8) ||| r1)
          ((r2 <<< 24) ||| (r3 <<< 16) ||| (r4 <<< 8) ||| r5)
      · rw [if_pos hok] at happ'
        simp only [loadFields, Setting.load, hfe, happ']
        exact ih _ hrest
      · rw [if_neg hok] at happ'
        refine Or.inr ?_
        simp [loadFields, Setting.load, hfe, happ']

theorem setting_load_some (raw : List Nat) (ost : Option Setting)
    (h : Setting.load raw = some ost) : ∃ id v, ost = Setting.from_id id v := by
  rcases raw with _ | ⟨r0, _ | ⟨r1, _ | ⟨r2, _ | ⟨r3, _ | ⟨r4, _ | ⟨r5, crest⟩⟩⟩⟩⟩⟩
  · simp [Setting.load] at h
  · simp [Setting.load] at h
  · simp [Setting.load] at h
  · simp [Setting.load] at h
  · simp [Setting.load] at h
  · simp [Setting.load] at h
  · exact ⟨_, _, (Option.some.inj h).symm⟩

theorem loadFields_inv :
    ∀ (cs : List (List Nat)) (s s' : Settings), loadFields s cs = some (.ok s') →
      s'.flags = s.flags ∧
        ((∀ p ∈ s.fields, registeredOK p.1 p.2) → ∀ p ∈ s'.fields, registeredOK p.1 p.2) := by
  intro cs
  induction cs with
  | nil =>
    intro s s' h
    have h' : s = s' := by simpa [loadFields] using h
    subst h'
    exact ⟨rfl, fun hp => hp⟩
  | cons c rest ih =>
    intro s s' h
    rcases hsl : Setting.load c with _ | ost
    · rw [loadFields.eq_def] at h
      simp [hsl] at h
    obtain ⟨id, v, rfl⟩ := setting_load_some c ost hsl
    have happ := applySetting_from_id s id v
    rcases hfe : Setting.from_id id v with _ | st
    · exact absurd hfe (from_id_ne_none _ _)
    rw [hfe] at happ
    simp only [Option.map_some'] at happ
    have happ' := Option.some.inj happ
    rw [loadFields.eq_def] at h
    simp only [hsl, hfe, happ'] at h
    by_cases hok : registeredOK id v
    · rw [if_pos hok] at h
      simp only [] at h
      obtain ⟨hfl, hreg⟩ := ih _ _ h
      refine ⟨by rw [hfl, set_flags], fun hall p hp => ?_⟩
      refine hreg (fun q hq => ?_) p hp
      rw [set_fields_some] at hq
      rcases btreeInsert_mem q _ _ _ hq with h' | h'
      · subst h'; exact hok
      · exact hall q h'
    · rw [if_neg hok] at h
      simp at h

/-! Encode-side lemmas. -/

/-- The 6 wire bytes of one field, as the encoder emits them. -/
def recordBytes (p : Nat × Nat) : List Nat := Setting.encode (Setting.unknown p.1 p.2)

theorem recordBytes_def (id v : Nat) :
    recordBytes (id, v) = [id / 256 % 256, id % 256, v / 16777216 % 256,
      v / 65536 % 256, v / 256 % 256, v % 256] := rfl

theorem flatten_recordBytes_length (l : List (Nat × Nat)) :
    ((l.map recordBytes).flatten).length = 6 * l.length := by
  induction l with
  | nil => rfl
  | cons p tl ih =>
    simp only [List.map_cons, List.flatten_cons, List.length_append, ih, List.length_cons]
    have : (recordBytes p).length = 6 := rfl
    omega

theorem setting_load_bytes (id v : Nat) (hid : id < 65536) (hv : v < 4294967296) :
    Setting.load [id / 256 % 256, id % 256, v / 16777216 % 256, v / 65536 % 256,
      v / 256 % 256, v % 256] = some (Setting.from_id id v) := by
  simp only [Setting.load]
  rw [compose16 id hid, compose32 v hv]

theorem chunks6_record (a b c d e f : Nat) (rest : List Nat) :
    chunks6 (a :: b :: c :: d :: e :: f :: rest) = [a, b, c, d, e, f] :: chunks6 rest := rfl

theorem setFold_cons (s : Settings) (p : Nat × Nat) (tl : List (Nat × Nat)) :
    setFold s (p :: tl) = setFold (s.set p.1 (some p.2)) tl := rfl

theorem loadFields_encode :
    ∀ (l : List (Nat × Nat)) (s : Settings), (∀ p ∈ l, ValidEntry p) →
      loadFields s (chunks6 ((l.map recordBytes).flatten)) = some (.ok (setFold s l)) := by
  intro l
  induction l with
  | nil => intro s _; rfl
  | cons p tl ih =>
    intro s hv
    obtain ⟨id, v⟩ := p
    obtain ⟨hid, hv32, hok⟩ := hv _ (List.mem_cons_self _ _)
    simp only [List.map_cons, List.flatten_cons, recordBytes_def, List.cons_append,
      List.nil_append]
    rw [chunks6_record]
    have hlb := setting_load_bytes id v hid hv32
    have happ := applySetting_from_id s id v
    rcases hfe : Setting.from_id id v with _ | st
    · exact absurd hfe (from_id_ne_none _ _)
    rw [hfe] at happ
    simp only [Option.map_some'] at happ
    have happ' := Option.some.inj happ
    rw [if_pos hok] at happ'
    rw [loadFields.eq_def]
    simp only [hlb, hfe, happ']
    rw [setFold_cons]
    exact ih _ (fun q hq => hv q (List.mem_cons_of_mem _ hq))

theorem setFold_sorted :
    ∀ (l : List (Nat × Nat)) (s : Settings),
      List.Pairwise (fun a b : Nat × Nat => a.1 < b.1) (s.fields ++ l) →
      setFold s l = { s with fields := s.fields ++ l } := by
  intro l
  induction l with
  | nil => intro s _; simp [setFold]
  | cons p tl ih =>
    intro s h
    obtain ⟨id, v⟩ := p
    rw [setFold_cons]
    have hlt : ∀ q ∈ s.fields, q.1 < id := by
      rw [List.pairwise_append] at h
      intro q hq
      exact h.2.2 q hq (id, v) (List.mem_cons_self _ _)
    have hset : s.set id (some v) = { s with fields := s.fields ++ [(id, v)] } := by
      simp [Settings.set, btreeInsert_append id v s.fields hlt]
    rw [hset]
    rw [ih { s with fields := s.fields ++ [(id, v)] }
      (by simpa [List.append_assoc] using h)]
    simp [List.append_assoc]

theorem get_setFold :
    ∀ (l : List (Nat × Nat)) (s : Settings) (id : Nat),
      (setFold s l).get id = match lastLookup id l with
        | some w => some w
        | none => s.get id := by
  intro l
  induction l with
  | nil => intro s id; simp [setFold, lastLookup]
  | cons p tl ih =>
    intro s id
    obtain ⟨k, v⟩ := p
    rw [setFold_cons, ih, lastLookup]
    cases hl : lastLookup id tl with
    | some w => simp
    | none =>
      simp only []
      rw [get_set_some]
      by_cases hk : k = id
      · simp [hk]
      · simp [hk]

/-! Preservation of `GoodSettings` under legal typed-setter calls. -/

theorem good_default : GoodSettings Settings.default :=
  ⟨rfl, List.Pairwise.nil, fun p hp => absurd hp (List.not_mem_nil p)⟩

theorem set_some_good (s : Settings) (id v : Nat) (hgood : GoodSettings s)
    (hid : id < 65536) (hv : v < 4294967296) (hok : registeredOK id v) :
    GoodSettings (s.set id (some v)) := by
  obtain ⟨hfl, hsort, hval⟩ := hgood
  refine ⟨by rw [set_flags]; exact hfl, ?_, ?_⟩
  · rw [set_fields_some]
    exact btreeInsert_sorted id v _ hsort
  · intro p hp
    rw [set_fields_some] at hp
    rcases btreeInsert_mem p id v _ hp with h | h
    · subst h; exact ⟨hid, hv, hok⟩
    · exact hval p h

theorem set_none_good (s : Settings) (id : Nat) (hgood : GoodSettings s) :
    GoodSettings (s.set id none) := by
  obtain ⟨hfl, hsort, hval⟩ := hgood
  refine ⟨by rw [set_flags]; exact hfl, ?_, ?_⟩
  · exact List.Pairwise.sublist (btreeRemove_sublist id s.fields) hsort
  · intro p hp
    exact hval p ((btreeRemove_sublist id s.fields).subset hp)

theorem setterop_good (op : SetterOp) (hleg : op.legal = true) (s s' : Settings)
    (h : op.apply s = some s') (hgood : GoodSettings s) : GoodSettings s' := by
  cases op with
  | initialWindow v =>
    cases v with
    | none =>
      cases Option.some.inj h
      exact set_none_good s _ hgood
    | some x =>
      have hx : x ≤ MAX_INITIAL_WINDOW_SIZE := by
        simpa [SetterOp.legal] using hleg
      rw [MAX_INITIAL_WINDOW_SIZE] at hx
      cases Option.some.inj h
      refine set_some_good s _ x hgood (by norm_num [Setting.INITIAL_WINDOW_SIZE])
        (by omega) ?_
      refine ⟨?_, ?_, ?_⟩ <;>
        simp only [Setting.ENABLE_PUSH, Setting.INITIAL_WINDOW_SIZE, Setting.MAX_FRAME_SIZE,
          MAX_INITIAL_WINDOW_SIZE] <;> omega
  | maxConcurrent v =>
    cases v with
    | none =>
      cases Option.some.inj h
      exact set_none_good s _ hgood
    | some x =>
      have hx : x < 4294967296 := by
        simpa [SetterOp.legal] using hleg
      cases Option.some.inj h
      refine set_some_good s _ x hgood (by norm_num [Setting.MAX_CONCURRENT_STREAMS]) hx ?_
      refine ⟨?_, ?_, ?_⟩ <;>
        simp only [Setting.ENABLE_PUSH, Setting.INITIAL_WINDOW_SIZE, Setting.MAX_FRAME_SIZE,
          Setting.MAX_CONCURRENT_STREAMS] <;> omega
  | maxFrame v =>
    cases v with
    | none =>
      cases Option.some.inj h
      exact set_none_good s _ hgood
    | some x =>
      simp only [SetterOp.apply, Settings.set_max_frame_size] at h
      split_ifs at h with hb
      rw [DEFAULT_MAX_FRAME_SIZE, MAX_MAX_FRAME_SIZE] at hb
      cases Option.some.inj h
      refine set_some_good s _ x hgood (by norm_num [Setting.MAX_FRAME_SIZE]) (by omega) ?_
      refine ⟨?_, ?_, ?_⟩ <;>
        simp only [Setting.ENABLE_PUSH, Setting.INITIAL_WINDOW_SIZE, Setting.MAX_FRAME_SIZE,
          DEFAULT_MAX_FRAME_SIZE, MAX_MAX_FRAME_SIZE] <;> omega
  | maxHeaderList v =>
    cases v with
    | none =>
      cases Option.some.inj h
      exact set_none_good s _ hgood
    | some x =>
      have hx : x < 4294967296 := by
        simpa [SetterOp.legal] using hleg
      cases Option.some.inj h
      refine set_some_good s _ x hgood (by norm_num [Setting.MAX_HEADER_LIST_SIZE]) hx ?_
      refine ⟨?_, ?_, ?_⟩ <;>
        simp only [Setting.ENABLE_PUSH, Setting.INITIAL_WINDOW_SIZE, Setting.MAX_FRAME_SIZE,
          Setting.MAX_HEADER_LIST_SIZE] <;> omega
  | enablePush b =>
    cases Option.some.inj h
    refine set_some_good s _ _ hgood (by norm_num [Setting.ENABLE_PUSH])
      (by cases b <;> norm_num) ?_
    refine ⟨?_, ?_, ?_⟩ <;>
      simp only [Setting.ENABLE_PUSH, Setting.INITIAL_WINDOW_SIZE, Setting.MAX_FRAME_SIZE] <;>
      first
        | omega
        | (intro _; cases b <;> simp)

theorem applyOps_good :
    ∀ (ops : List SetterOp) (s : Settings), (∀ op ∈ ops, op.legal = true) →
      GoodSettings s → ∀ s', applyOps s ops = some s' → GoodSettings s' := by
  intro ops
  induction ops with
  | nil =>
    intro s _ hgood s' h
    cases Option.some.inj h
    exact hgood
  | cons op rest ih =>
    intro s hleg hgood s' h
    rcases happ : op.apply s with _ | s1
    · rw [applyOps.eq_def] at h
      simp [happ] at h
    · rw [applyOps.eq_def] at h
      simp only [happ] at h
      exact ih s1 (fun q hq => hleg q (List.mem_cons_of_mem _ hq))
        (setterop_good op (hleg op (List.mem_cons_self _ _)) s s1 happ hgood) s' h

/-! Assembly lemmas for `Settings::load` on well-formed non-ACK input. -/

theorem load_nonack (p : List Nat) (flag : Nat) (k : Kind)
    (hack : (SettingsFlags.load flag).is_ack = false) (hlen : p.length % 6 = 0) :
    Settings.load ⟨k, flag, 0⟩ p = loadFields Settings.default (chunks6 p) := by
  unfold Settings.load
  simp [hack, hlen]

theorem load_encode_good (s : Settings) (h : GoodSettings s) :
    Settings.load (Settings.encode s).head (Settings.encode s).payload =
      some (.ok ⟨⟨0⟩, s.fields⟩) := by
  obtain ⟨hfl, hsort, hval⟩ := h
  have hpay : (Settings.encode s).payload = (s.fields.map recordBytes).flatten := by
    simp only [Settings.encode, Settings.settingList, List.map_map]
    rfl
  have hhead : (Settings.encode s).head = ⟨Kind.settings, 0, 0⟩ := by
    simp [Settings.encode, Head.new, SettingsFlags.toByte, hfl]
  rw [hpay, hhead]
  rw [load_nonack _ 0 _ rfl (by rw [flatten_recordBytes_length]; omega)]
  rw [loadFields_encode s.fields Settings.default (fun p hp => hval p hp)]
  rw [setFold_sorted s.fields Settings.default (by simpa using hsort)]
  rfl

theorem load_single_record (b0 b1 b2 b3 b4 b5 : Nat) :
    Settings.load ⟨Kind.settings, 0, 0⟩ [b0, b1, b2, b3, b4, b5] =
      if registeredOK ((b0 <<< 8) ||| b1) ((b2 <<< 24) ||| (b3 <<< 16) ||| (b4 <<< 8) ||| b5)
      then some (.ok (Settings.default.set ((b0 <<< 8) ||| b1)
        (some ((b2 <<< 24) ||| (b3 <<< 16) ||| (b4 <<< 8) ||| b5))))
      else some (.error .invalidSettingValue) := by
  rw [load_nonack [b0, b1, b2, b3, b4, b5] 0 Kind.settings rfl (by simp)]
  rw [show chunks6 [b0, b1, b2, b3, b4, b5] = [[b0, b1, b2, b3, b4, b5]] from rfl]
  have happ := applySetting_from_id Settings.default ((b0 <<< 8) ||| b1)
    ((b2 <<< 24) ||| (b3 <<< 16) ||| (b4 <<< 8) ||| b5)
  rcases hfe : Setting.from_id ((b0 <<< 8) ||| b1)
      ((b2 <<< 24) ||| (b3 <<< 16) ||| (b4 <<< 8) ||| b5) with _ | st
  · exact absurd hfe (from_id_ne_none _ _)
  rw [hfe] at happ
  simp only [Option.map_some'] at happ
  have happ' := Option.some.inj happ
  rw [loadFields.eq_def]
  simp only [Setting.load, hfe, happ']
  by_cases hok : registeredOK ((b0 <<< 8) ||| b1)
      ((b2 <<< 24) ||| (b3 <<< 16) ||| (b4 <<< 8) ||| b5)
  · rw [if_pos hok, if_pos hok]
    rfl
  · rw [if_neg hok, if_neg hok]

theorem loadFields_encode_error :
    ∀ (l : List (Nat × Nat)) (s : Settings),
      (∀ p ∈ l, p.1 < 65536 ∧ p.2 < 4294967296) →
      (loadFields s (chunks6 ((l.map recordBytes).flatten)) =
          some (.error .invalidSettingValue) ↔
        ∃ p ∈ l, ¬ registeredOK p.1 p.2) := by
  intro l
  induction l with
  | nil =>
    intro s _
    constructor
    · intro h
      simp [loadFields] at h
    · rintro ⟨p, hp, _⟩
      exact absurd hp (List.not_mem_nil p)
  | cons p tl ih =>
    intro s hb
    obtain ⟨id, v⟩ := p
    obtain ⟨hid, hv32⟩ := hb _ (List.mem_cons_self _ _)
    simp only [List.map_cons, List.flatten_cons, recordBytes_def, List.cons_append,
      List.nil_append]
    rw [chunks6_record]
    have hlb := setting_load_bytes id v hid hv32
    have happ := applySetting_from_id s id v
    rcases hfe : Setting.from_id id v with _ | st
    · exact absurd hfe (from_id_ne_none _ _)
    rw [hfe] at happ
    simp only [Option.map_some'] at happ
    have happ' := Option.some.inj happ
    rw [loadFields.eq_def]
    simp only [hlb, hfe, happ']
    by_cases hok : registeredOK id v
    · rw [if_pos hok]
      simp only []
      rw [ih _ (fun q hq => hb q (List.mem_cons_of_mem _ hq))]
      constructor
      · rintro ⟨q, hq, hnq⟩
        exact ⟨q, List.mem_cons_of_mem _ hq, hnq⟩
      · rintro ⟨q, hq, hnq⟩
        rcases List.mem_cons.mp hq with h | h
        · subst h
          exact absurd hok hnq
        · exact ⟨q, h, hnq⟩
    · rw [if_neg hok]
      simp only []
      constructor
      · intro _
        exact ⟨(id, v), List.mem_cons_self _ _, hok⟩
      · intro _
        trivial

/-! The claims. -/

/-- C1: Round trip — for every `Settings` built only via the typed setters
with legal values starting from the default (non-ACK) instance, encoding it
with `Settings::encode` and then decoding the produced payload (skipping the
frame header) with `Settings::load` succeeds and yields a `Settings` whose
field map equals the original's. -/
theorem settings_encode_load_roundtrip (ops : List SetterOp)
    (hleg : ∀ op ∈ ops, op.legal = true) (s : Settings)
    (happly : applyOps Settings.default ops = some s) :
    ∃ s', Settings.load (Settings.encode s).head (Settings.encode s).payload =
        some (.ok s') ∧ s'.fields = s.fields := by
  have hgood := applyOps_good ops Settings.default hleg good_default s happly
  exact ⟨⟨⟨0⟩, s.fields⟩, load_encode_good s hgood, rfl⟩

/-- C1 witness: a concrete setter-built `Settings` round-trips. -/
theorem settings_encode_load_roundtrip_witness :
    ∃ s', Settings.load (Settings.encode ⟨⟨0⟩, [(2, 0), (4, 100)]⟩).head
        (Settings.encode ⟨⟨0⟩, [(2, 0), (4, 100)]⟩).payload = some (.ok s') ∧
      s'.fields = (⟨⟨0⟩, [(2, 0), (4, 100)]⟩ : Settings).fields :=
  settings_encode_load_roundtrip [.enablePush false, .initialWindow (some 100)]
    (by decide) ⟨⟨0⟩, [(2, 0), (4, 100)]⟩ (by decide)

/-- C2: Decode range checks — a single-record non-ACK payload is rejected by
`Settings::load` with `InvalidSettingValue` exactly when the record's
registered value is out of range — `registeredOK` is, definitionally,
EnablePush in {0, 1}, InitialWindowSize at most `2^31 - 1`, MaxFrameSize in
`[16384, 2^24 - 1]`, everything else (HeaderTableSize, MaxConcurrentStreams,
MaxHeaderListSize, unknown identifiers) unconstrained — and is accepted with
the parsed field stored otherwise (so the boundary values 16384, `2^24 - 1`,
`2^31 - 1`, 0 and 1 pass); more generally, a multi-record payload is rejected
with `InvalidSettingValue` exactly when some record's registered value is out
of range. -/
theorem settings_load_range_checks (b0 b1 b2 b3 b4 b5 : Nat)
    (h0 : b0 < 256) (h1 : b1 < 256) (h2 : b2 < 256) (h3 : b3 < 256)
    (h4 : b4 < 256) (h5 : b5 < 256) :
    (Settings.load ⟨Kind.settings, 0, 0⟩ [b0, b1, b2, b3, b4, b5] =
        some (.error .invalidSettingValue) ↔
      ¬ registeredOK ((b0 <<< 8) ||| b1)
        ((b2 <<< 24) ||| (b3 <<< 16) ||| (b4 <<< 8) ||| b5)) ∧
    (registeredOK ((b0 <<< 8) ||| b1) ((b2 <<< 24) ||| (b3 <<< 16) ||| (b4 <<< 8) ||| b5) →
      Settings.load ⟨Kind.settings, 0, 0⟩ [b0, b1, b2, b3, b4, b5] =
        some (.ok (Settings.default.set ((b0 <<< 8) ||| b1)
          (some ((b2 <<< 24) ||| (b3 <<< 16) ||| (b4 <<< 8) ||| b5))))) ∧
    (∀ (l : List (Nat × Nat)), (∀ q ∈ l, q.1 < 65536 ∧ q.2 < 4294967296) →
      (Settings.load ⟨Kind.settings, 0, 0⟩ ((l.map recordBytes).flatten) =
          some (.error .invalidSettingValue) ↔ ∃ q ∈ l, ¬ registeredOK q.1 q.2)) := by
  refine ⟨?_, ?_, ?_⟩
  · rw [load_single_record]
    by_cases hok : registeredOK ((b0 <<< 8) ||| b1)
        ((b2 <<< 24) ||| (b3 <<< 16) ||| (b4 <<< 8) ||| b5)
    · rw [if_pos hok]
      simp [hok]
    · rw [if_neg hok]
      simp [hok]
  · intro hok
    rw [load_single_record, if_pos hok]
  · intro l hb
    rw [load_nonack _ 0 _ rfl (by rw [flatten_recordBytes_length]; omega)]
    exact loadFields_encode_error l Settings.default hb

/-- C2 witness: the record (EnablePush, 2) is rejected as out of range, and a
one-record InitialWindowSize payload carrying `2^31` is rejected. -/
theorem settings_load_range_checks_witness :
    (Settings.load ⟨Kind.settings, 0, 0⟩ [0, 2, 0, 0, 0, 2] =
        some (.error .invalidSettingValue) ↔
      ¬ registeredOK ((0 <<< 8) ||| 2) ((0 <<< 24) ||| (0 <<< 16) ||| (0 <<< 8) ||| 2)) ∧
    (Settings.load ⟨Kind.settings, 0, 0⟩
        (([((4 : Nat), (2147483648 : Nat))].map recordBytes).flatten) =
        some (.error .invalidSettingValue) ↔
      ∃ q ∈ [((4 : Nat), (2147483648 : Nat))], ¬ registeredOK q.1 q.2) :=
  ⟨(settings_load_range_checks 0 2 0 0 0 2 (by decide) (by decide) (by decide) (by decide)
      (by decide) (by decide)).1,
    (settings_load_range_checks 0 2 0 0 0 2 (by decide) (by decide) (by decide) (by decide)
      (by decide) (by decide)).2.2 [(4, 2147483648)] (by decide)⟩

/-- C6: Duplicate identifiers — decoding a payload of well-formed records
stores, for every identifier, exactly the value of the last record carrying
it: the decode succeeds and the resulting map agrees with last-occurrence
lookup on the record list. -/
theorem settings_load_duplicate_last_wins (l : List (Nat × Nat))
    (hval : ∀ p ∈ l, ValidEntry p) :
    Settings.load ⟨Kind.settings, 0, 0⟩ ((l.map recordBytes).flatten) =
        some (.ok (setFold Settings.default l)) ∧
      ∀ id, (setFold Settings.default l).get id = lastLookup id l := by
  constructor
  · rw [load_nonack _ 0 _ rfl (by rw [flatten_recordBytes_length]; omega)]
    exact loadFields_encode l Settings.default hval
  · intro id
    rw [get_setFold]
    cases hl : lastLookup id l with
    | some w => rfl
    | none => rfl

/-- C6 witness: records (0x4, 100) then (0x4, 200) decode to a single stored
value, 200. -/
theorem settings_load_duplicate_last_wins_witness :
    Settings.load ⟨Kind.settings, 0, 0⟩
        (([((4 : Nat), (100 : Nat)), (4, 200)].map recordBytes).flatten) =
      some (.ok (setFold Settings.default [(4, 100), (4, 200)])) ∧
    (setFold Settings.default [((4 : Nat), (100 : Nat)), (4, 200)]).get 4 = some 200 :=
  ⟨(settings_load_duplicate_last_wins [(4, 100), (4, 200)] (by decide)).1,
    (settings_load_duplicate_last_wins [(4, 100), (4, 200)] (by decide)).2 4⟩

/-- C8: Deterministic encode — two `Settings` built by (possibly different)
legal typed-setter sequences from the default instance that end with the same
field map encode identically, and the encoder emits the stored fields in
strictly ascending identifier order. -/
theorem settings_encode_deterministic (ops1 ops2 : List SetterOp)
    (hl1 : ∀ op ∈ ops1, op.legal = true) (hl2 : ∀ op ∈ ops2, op.legal = true)
    (s1 s2 : Settings)
    (ha1 : applyOps Settings.default ops1 = some s1)
    (ha2 : applyOps Settings.default ops2 = some s2)
    (hfields : s1.fields = s2.fields) :
    Settings.encode s1 = Settings.encode s2 ∧
      List.Pairwise (fun a b : Nat => a < b) (s1.fields.map Prod.fst) := by
  have g1 := applyOps_good ops1 Settings.default hl1 good_default s1 ha1
  have g2 := applyOps_good ops2 Settings.default hl2 good_default s2 ha2
  constructor
  · have hs : s1 = s2 := by
      obtain ⟨f1, l1⟩ := s1
      obtain ⟨f2, l2⟩ := s2
      simp only [] at hfields
      rw [hfields]
      have e1 : f1 = ⟨0⟩ := g1.1
      have e2 : f2 = ⟨0⟩ := g2.1
      rw [e1, e2]
    rw [hs]
  · exact List.Pairwise.map Prod.fst (fun a b hab => hab) g1.2.1

/-- C8 witness: two setter orders with the same resulting field map. -/
theorem settings_encode_deterministic_witness :
    Settings.encode ⟨⟨0⟩, [(4, 1), (6, 2)]⟩ = Settings.encode ⟨⟨0⟩, [(4, 1), (6, 2)]⟩ ∧
      List.Pairwise (fun a b : Nat => a < b)
        ((⟨⟨0⟩, [(4, 1), (6, 2)]⟩ : Settings).fields.map Prod.fst) :=
  settings_encode_deterministic
    [.initialWindow (some 1), .maxHeaderList (some 2)]
    [.maxHeaderList (some 2), .initialWindow (some 1)]
    (by decide) (by decide)
    ⟨⟨0⟩, [(4, 1), (6, 2)]⟩ ⟨⟨0⟩, [(4, 1), (6, 2)]⟩
    (by decide) (by decide) rfl

/-- C3 counterexample: the claim as stated is false — the public generic
setter does not guard the ACK flag, so mutating `Settings::ack()` with
`set(0x1, Some(5))` yields a value whose `is_ack()` is true while its field
map is non-empty. -/
theorem ack_empty_fields_counterexample :
    (Settings.ack.set 1 (some 5)).is_ack = true ∧
      (Settings.ack.set 1 (some 5)).fields ≠ [] := by decide

/-- C3 amended: for every `Settings` as constructed by `ack()`, `default()`
or a successful `load` (before any setter mutation), `is_ack()` implies the
field map is empty.  (Setters do not preserve this: see the
counterexample.) -/
theorem ack_implies_empty_fields (s : Settings) (hc : Constructed s)
    (hack : s.is_ack = true) : s.fields = [] := by
  induction hc with
  | ack => rfl
  | dflt => rfl
  | load hd p s' hl =>
    obtain ⟨k, fl, sid⟩ := hd
    unfold Settings.load at hl
    by_cases hsid : sid ≠ 0
    · simp [hsid] at hl
    by_cases hfl : (SettingsFlags.load fl).is_ack
    · by_cases hp : p.length > 0
      · simp [hsid, hfl, hp] at hl
      · simp [hsid, hfl, hp] at hl
        rw [← hl]
        rfl
    · by_cases hlen : p.length % 6 ≠ 0
      · simp [hsid, hfl, hlen] at hl
      · simp only [hsid, hfl, hlen, if_neg, if_false, ite_false, if_true, ite_true,
          Bool.false_eq_true, not_false_eq_true, ne_eq, not_true_eq_false] at hl
        have hflag := (loadFields_inv _ _ _ hl).1
        rw [Settings.is_ack, hflag] at hack
        exact absurd hack (by decide)

/-- C3 witness: the ACK instance itself. -/
theorem ack_implies_empty_fields_witness : Settings.ack.fields = [] :=
  ack_implies_empty_fields Settings.ack Constructed.ack rfl

/-- C4 counterexample: the claim as stated is false — the typed setter
`set_initial_window_size` performs no range check, so a value above
`2^31 - 1` can be stored under the registered identifier 0x4 through the
public interface. -/
theorem validated_storage_counterexample :
    (Settings.default.set_initial_window_size (some 2147483648)).fields =
        [(4, 2147483648)] ∧
      ¬ registeredOK 4 2147483648 := by decide

/-- C4 amended: every `Settings` produced by a successful `Settings::load`
stores, under each registered identifier, only values satisfying that
identifier's range check.  (The generic `set` and the typed
`set_initial_window_size` store values unchecked, so the invariant is not
preserved by arbitrary setter mutation: see the counterexample.) -/
theorem validated_storage_load (hd : Head) (p : List Nat) (s : Settings)
    (h : Settings.load hd p = some (.ok s)) :
    ∀ q ∈ s.fields, registeredOK q.1 q.2 := by
  obtain ⟨k, fl, sid⟩ := hd
  unfold Settings.load at h
  by_cases hsid : sid ≠ 0
  · simp [hsid] at h
  by_cases hfl : (SettingsFlags.load fl).is_ack
  · by_cases hp : p.length > 0
    · simp [hsid, hfl, hp] at h
    · simp [hsid, hfl, hp] at h
      rw [← h]
      intro q hq
      exact absurd hq (List.not_mem_nil q)
  · by_cases hlen : p.length % 6 ≠ 0
    · simp [hsid, hfl, hlen] at h
    · simp only [hsid, hfl, hlen, if_neg, if_false, ite_false, if_true, ite_true,
        Bool.false_eq_true, not_false_eq_true, ne_eq, not_true_eq_false] at h
      exact (loadFields_inv _ _ _ h).2 (fun q hq => absurd hq (List.not_mem_nil q))

/-- C4 witness: a stored field of a concrete successful load is range-valid. -/
theorem validated_storage_load_witness : registeredOK 1 5 :=
  validated_storage_load ⟨Kind.settings, 0, 0⟩ [0, 1, 0, 0, 0, 5] ⟨⟨0⟩, [(1, 5)]⟩
    (by decide) (1, 5) (by decide)

/-- C5: Framing check — for every header with the ACK flag clear and stream
id zero, `Settings::load` returns the multiple-of-6 framing error (source
variant `InvalidPayloadAckSettings`, the error the spec calls
InvalidSettingsPayloadLength) exactly when the payload length is not a
multiple of 6, regardless of payload content. -/
theorem settings_load_payload_framing (hd : Head) (p : List Nat)
    (hsid : hd.streamId = 0) (hack : (SettingsFlags.load hd.flag).is_ack = false) :
    Settings.load hd p = some (.error .invalidPayloadAckSettings) ↔
      p.length % 6 ≠ 0 := by
  obtain ⟨k, fl, sid⟩ := hd
  simp only [] at hsid hack
  subst hsid
  constructor
  · intro h
    by_contra hlen
    rw [load_nonack p fl k hack hlen] at h
    rcases loadFields_result (chunks6 p) Settings.default (chunks6_mem_length p hlen)
      with ⟨s', hs'⟩ | herr
    · rw [hs'] at h
      simp at h
    · rw [herr] at h
      simp at h
  · intro hlen
    unfold Settings.load
    simp [hack, hlen]

/-- C5 witness: a 7-byte non-ACK payload is rejected with the framing
error. -/
theorem settings_load_payload_framing_witness :
    Settings.load ⟨Kind.settings, 0, 0⟩ [0, 0, 0, 0, 0, 0, 0] =
        some (.error .invalidPayloadAckSettings) ↔
      ([0, 0, 0, 0, 0, 0, 0] : List Nat).length % 6 ≠ 0 :=
  settings_load_payload_framing ⟨Kind.settings, 0, 0⟩ [0, 0, 0, 0, 0, 0, 0] rfl rfl

/-- C7: ACK special case — for every header with the ACK flag set and stream
id zero, `Settings::load` rejects a non-empty payload with
`InvalidPayloadLength` and otherwise returns the ACK instance, whose
`is_ack()` is true and whose field map is empty (no record parsing
happens). -/
theorem settings_load_ack_case (hd : Head) (p : List Nat)
    (hsid : hd.streamId = 0) (hack : (SettingsFlags.load hd.flag).is_ack = true) :
    (p ≠ [] → Settings.load hd p = some (.error .invalidPayloadLength)) ∧
    (p = [] → Settings.load hd p = some (.ok Settings.ack)) ∧
    Settings.ack.is_ack = true ∧ Settings.ack.fields = [] := by
  obtain ⟨k, fl, sid⟩ := hd
  simp only [] at hsid hack
  subst hsid
  refine ⟨?_, ?_, rfl, rfl⟩
  · intro hne
    have hpos : p.length > 0 := List.length_pos.mpr hne
    unfold Settings.load
    simp [hack, hpos]
  · intro he
    subst he
    unfold Settings.load
    simp [hack]

/-- C7 witness: at a concrete ACK header, a 1-byte payload is rejected and
the empty payload yields the ACK instance. -/
theorem settings_load_ack_case_witness :
    (([0] : List Nat) ≠ [] →
      Settings.load ⟨Kind.settings, 1, 0⟩ [0] = some (.error .invalidPayloadLength)) ∧
    (([0] : List Nat) = [] →
      Settings.load ⟨Kind.settings, 1, 0⟩ [0] = some (.ok Settings.ack)) ∧
    Settings.ack.is_ack = true ∧ Settings.ack.fields = [] :=
  settings_load_ack_case ⟨Kind.settings, 1, 0⟩ [0] rfl rfl

/-- C9: No reachable panic — every chunk the decode driver produces from a
payload that passed the multiple-of-6 check has exactly 6 bytes, `Setting::load`
succeeds (does not hit its out-of-bounds panic) on every 6-byte input, and
`Settings::load` returns a `Result` (never aborts) on every header and
payload. -/
theorem settings_load_no_panic :
    (∀ p : List Nat, p.length % 6 = 0 → ∀ c ∈ chunks6 p, c.length = 6) ∧
    (∀ raw : List Nat, raw.length = 6 → ∃ st, Setting.load raw = some st) ∧
    (∀ (hd : Head) (p : List Nat), (Settings.load hd p).isSome = true) := by
  refine ⟨chunks6_mem_length, ?_, ?_⟩
  · intro raw hlen
    rcases raw with _ | ⟨r0, _ | ⟨r1, _ | ⟨r2, _ | ⟨r3, _ | ⟨r4, _ | ⟨r5, crest⟩⟩⟩⟩⟩⟩
    · exact absurd hlen (by simp)
    · exact absurd hlen (by simp)
    · exact absurd hlen (by simp)
    · exact absurd hlen (by simp)
    · exact absurd hlen (by simp)
    · exact absurd hlen (by simp)
    · exact ⟨_, rfl⟩
  · intro hd p
    obtain ⟨k, fl, sid⟩ := hd
    unfold Settings.load
    by_cases hsid : sid ≠ 0
    · simp [hsid]
    by_cases hfl : (SettingsFlags.load fl).is_ack
    · by_cases hp : p.length > 0
      · simp [hsid, hfl, hp]
      · simp [hsid, hfl, hp]
    · by_cases hlen : p.length % 6 ≠ 0
      · simp [hsid, hfl, hlen]
      · rw [not_ne_iff] at hlen
        rcases loadFields_result (chunks6 p) Settings.default
            (chunks6_mem_length p hlen) with ⟨s', hs'⟩ | herr
        · simp [hsid, hfl, hlen, hs']
        · simp [hsid, hfl, hlen, herr]

/-- C9 witness: concrete instances of all three conjuncts. -/
theorem settings_load_no_panic_witness :
    ([0, 0, 0, 0, 0, 0] : List Nat).length = 6 ∧
    (∃ st, Setting.load [0, 0, 0, 0, 0, 0] = some st) ∧
    (Settings.load ⟨Kind.settings, 0, 0⟩ [0]).isSome = true :=
  ⟨settings_load_no_panic.1 [0, 0, 0, 0, 0, 0] (by decide) [0, 0, 0, 0, 0, 0] (by decide),
    settings_load_no_panic.2.1 [0, 0, 0, 0, 0, 0] (by decide),
    settings_load_no_panic.2.2 ⟨Kind.settings, 0, 0⟩ [0]⟩

/-- C10: The frame kind is not validated — for any two headers with stream id
zero that differ only in their kind tag, `Settings::load` returns the same
`Result` on every payload (the source checks the kind only in a debug-only
assertion absent from release builds, and never reports it through the error
result). -/
theorem settings_load_ignores_kind (k1 k2 : Kind) (flag : Nat) (p : List Nat) :
    Settings.load ⟨k1, flag, 0⟩ p = Settings.load ⟨k2, flag, 0⟩ p := rfl

end H2
